import Mathlib

/-
Verification of the cluster-launch orchestrator in src/runner/prepare_hdp.py.

The Python source is shallowly embedded below: the provider connection is a
record of account state (security groups, reservations, zones, image lookup
result) together with logs of the side-effecting API calls issued (group
creation, rule authorization, instance-run calls, partition-function
applications); Python exceptions and sys.exit become Except / Option values.
Machine integers from the CLI are Nat (the claims only concern nonnegative
counts, where Python floor division and Nat division agree).
-/

namespace PrepareHdp

/-- One EC2 instance as seen through boto: a provider id and a lifecycle
state string (pending, running, stopping, stopped, terminated, ...). -/
structure Instance where
  iid : Nat
  state : String
deriving DecidableEq, Repr

/-- The name record of a security group attached to a reservation
(the code only ever reads g.name from res.groups). -/
structure GroupInfo where
  name : String
deriving DecidableEq, Repr

/-- One reservation returned by conn.get_all_instances(): its member
instances and the security groups the reservation belongs to. -/
structure Reservation where
  instances : List Instance
  groups : List GroupInfo
deriving DecidableEq, Repr

/-- A security-group authorization rule: either group-internal traffic from a
named source group, or a protocol/port-range/CIDR rule. -/
inductive Rule where
  | srcGroup (name : String)
  | tcpRange (ipProtocol : String) (fromPort toPort : Nat) (cidrIp : String)
deriving DecidableEq, Repr

/-- An account security group: name, description and its current rule list. -/
structure SecGroup where
  name : String
  description : String
  rules : List Rule
deriving DecidableEq, Repr

/-- A machine image (AMI) returned by conn.get_all_images. -/
structure Image where
  id : String
deriving DecidableEq, Repr

/-- The ways the image lookup call can fail at the provider: the id does not
resolve, or an API / credential / network level exception is raised. -/
inductive ProviderExc where
  | imageNotFound
  | apiError (code : Nat)
  | credentialError
  | networkError
deriving DecidableEq, Repr

/-- Fatal outcomes of the launch path.  configError is the ConfigurationError
of the error taxonomy in the spec; the embedded code never produces it. -/
inductive LaunchError where
  | configError
  | clusterExists (masterGroup slaveGroup : String)
  | amiNotFound (msg : String)
  | clusterNotFound
  | indexError
deriving DecidableEq, Repr

/-- One image.run call as issued to the provider (key_name and the block
device map are payload not examined by any claim). -/
structure RunCall where
  security_group : String
  instance_type : String
  placement : String
  min_count : Nat
  max_count : Nat
deriving DecidableEq, Repr

/-- The provider connection: account state as the code queries it, plus logs
of the side-effecting calls the code issues.  partitionCalls records each
application of get_partition with its (total, num_partitions, index)
arguments, so that claims about the partition function never being applied
can be stated. -/
structure Conn where
  groups : List SecGroup
  reservations : List Reservation
  imagesResult : Except ProviderExc (List Image)
  zones : List String
  nextId : Nat
  createCalls : List String
  authCalls : List (String × Rule)
  runCalls : List RunCall
  partitionCalls : List (Nat × Nat × Nat)
deriving Repr

/-- The subset of the parsed command-line options (parse_args) that the
embedded functions read. -/
structure Opts where
  slaves : Nat
  key_pair : String
  identity_file : String
  instance_type : String
  master_instance_type : String
  zone : String
  ami : String
  resume : Bool
  ebs_vol_size : Nat
  user : String
deriving DecidableEq, Repr

/-- Source lines 151 to 152: an instance counts as active when its state is
pending, running, stopping or stopped. -/
def is_active (inst : Instance) : Bool :=
  ["pending", "running", "stopping", "stopped"].contains inst.state

/-- Source lines 450 to 454: number of items in one partition.  Python floor
division and modulo on nonnegative ints agree with Nat division; the Python
test (total % num_partitions) - current_partitions > 0 agrees with the
truncated Nat subtraction used here. -/
def get_partition (total num_partitions current_partitions : Nat) : Nat :=
  let num_slaves_this_zone := total / num_partitions
  if total % num_partitions - current_partitions > 0 then
    num_slaves_this_zone + 1
  else
    num_slaves_this_zone

theorem get_partition_closed_form (total n i : Nat) :
    get_partition total n i = total / n + (if i < total % n then 1 else 0) := by
  simp only [get_partition]
  split_ifs <;> omega

theorem partition_sum_aux (q r : Nat) :
    ∀ m, ((List.range m).map (fun i => q + if i < r then 1 else 0)).sum = m * q + min r m := by
  intro m
  induction m with
  | zero => simp
  | succ m ih =>
    rw [List.range_succ, List.map_append, List.sum_append, ih, Nat.succ_mul]
    by_cases h : m < r <;> simp [h] <;> omega

/-- C1: for total >= 0 and n >= 1 zones, applying get_partition at indices
0..n-1 yields n nonnegative shares summing exactly to total, the first
(total mod n) zones receiving (total div n) + 1 and every later zone exactly
(total div n).  The function is pure, hence deterministic. -/
theorem c1_zone_partition (total n : Nat) (h : 1 ≤ n) :
    ((List.range n).map (fun i => get_partition total n i)).sum = total ∧
    (∀ i, i < total % n → get_partition total n i = total / n + 1) ∧
    (∀ i, total % n ≤ i → i < n → get_partition total n i = total / n) := by
  refine ⟨?_, ?_, ?_⟩
  · have he : (fun i => get_partition total n i)
        = (fun i => total / n + if i < total % n then 1 else 0) :=
      funext (fun i => get_partition_closed_form total n i)
    rw [he, partition_sum_aux]
    have h1 : total % n < n := Nat.mod_lt total h
    have h2 : n * (total / n) + total % n = total := Nat.div_add_mod total n
    omega
  · intro i hi
    rw [get_partition_closed_form]
    simp [hi]
  · intro i h1 h2
    rw [get_partition_closed_form]
    simp [Nat.not_lt.mpr h1]

/-- Witness for C1 at total = 3, n = 2. -/
theorem c1_zone_partition_witness :
    1 ≤ 2 ∧
    (((List.range 2).map (fun i => get_partition 3 2 i)).sum = 3 ∧
     (∀ i, i < 3 % 2 → get_partition 3 2 i = 3 / 2 + 1) ∧
     (∀ i, 3 % 2 ≤ i → i < 2 → get_partition 3 2 i = 3 / 2)) :=
  ⟨by decide, c1_zone_partition 3 2 (by decide)⟩

/-- Default option values from parse_args (source lines 40 to 98), with a
placeholder identity file. -/
def default_opts : Opts :=
  { slaves := 1
    key_pair := "key"
    identity_file := "id_rsa"
    instance_type := "m1.large"
    master_instance_type := ""
    zone := ""
    ami := "ami-a25415cb"
    resume := false
    ebs_vol_size := 0
    user := "root" }

/-- Outcome of one ssh invocation: a normal return or a re-raised
CalledProcessError, each carrying the total number of transport attempts
made and the list of inter-attempt sleep durations (seconds). -/
inductive SshResult where
  | success (attempts : Nat) (delays : List Nat)
  | failure (attempts : Nat) (delays : List Nat)
deriving DecidableEq, Repr

/-- The while True loop of ssh (source lines 424 to 434).  transport k tells
whether the k-th subprocess.check_call attempt (0-based) succeeds; tries is
the retry counter of the source and delays accumulates the 30 second sleeps. -/
def ssh_go (transport : Nat → Bool) (attempt tries : Nat) (delays : List Nat) : SshResult :=
  if transport attempt then
    .success (attempt + 1) delays
  else if _h : tries > 2 then
    .failure (attempt + 1) delays
  else
    ssh_go transport (attempt + 1) (tries + 1) (delays ++ [30])
termination_by 3 - tries
decreasing_by omega

/-- Source lines 421 to 434: run a command on a host through ssh.  The
command string is built from opts and the outcomes of the successive
subprocess calls are supplied by transport. -/
def ssh (host : String) (opts : Opts) (command : String) (transport : Nat → Bool) : SshResult :=
  let _cmd := "ssh -t -o StrictHostKeyChecking=no -i " ++ opts.identity_file ++ " "
      ++ opts.user ++ "@" ++ host ++ " " ++ command
  ssh_go transport 0 0 []

/-- C2 (code behavior): against a transport failing the first 2 attempts and
succeeding on the 3rd, ssh returns success after 3 attempts with two fixed
30 second delays; against a transport that always fails, ssh re-raises only
after 4 total attempts (3 retries beyond the first), not after the 3 total
attempts the claim and the source comment describe. -/
theorem c2_ssh_retry_behavior :
    ssh "host" default_opts "true" (fun k => decide (2 ≤ k)) = .success 3 [30, 30] ∧
    ssh "host" default_opts "true" (fun _ => false) = .failure 4 [30, 30, 30] := by
  constructor <;> simp [ssh, ssh_go]

/-- Source lines 186 to 190: resolve the machine image.  The bare except
clause maps every failure of the lookup, including the IndexError raised by
indexing an empty result, to the same one-line diagnostic and exit code 1. -/
def resolve_image (lookupResult : Except ProviderExc (List Image)) (ami : String) :
    Except (Nat × String) Image :=
  match lookupResult with
  | .ok (image :: _) => .ok image
  | .ok [] => .error (1, "Could not find AMI " ++ ami)
  | .error _ => .error (1, "Could not find AMI " ++ ami)

/-- C10: every exception raised while resolving the machine image, not only
an unknown image id, is reported with the single diagnostic Could not find
AMI and exit code 1, so the failure causes are indistinguishable at the
interface. -/
theorem c10_image_failure_collapsed (e e₂ : ProviderExc) (ami : String) :
    resolve_image (.error e) ami = .error (1, "Could not find AMI " ++ ami) ∧
    resolve_image (.ok []) ami = .error (1, "Could not find AMI " ++ ami) ∧
    resolve_image (.error e) ami = resolve_image (.error e₂) ami :=
  ⟨rfl, rfl, rfl⟩

/-- The reservation loop of get_existing_cluster (source lines 248 to 255):
a reservation with at least one active member whose group-name list equals
exactly the master (resp. slave) singleton contributes all of its instances
to the master (resp. slave) list, in reservation order. -/
def scan_reservations (cluster_name : String) : List Reservation → List Instance × List Instance
  | [] => ([], [])
  | res :: rest =>
    let prev := scan_reservations cluster_name rest
    if 0 < (res.instances.filter is_active).length then
      if res.groups.map GroupInfo.name = [cluster_name ++ "-master"] then
        (res.instances ++ prev.1, prev.2)
      else if res.groups.map GroupInfo.name = [cluster_name ++ "-slaves"] then
        (prev.1, res.instances ++ prev.2)
      else prev
    else prev

/-- Source lines 243 to 263: query the provider for the instances of an
existing cluster; with die_on_error, exit 1 unless both lists are nonempty. -/
def get_existing_cluster (conn : Conn) (_opts : Opts) (cluster_name : String)
    (die_on_error : Bool) : Except LaunchError (List Instance × List Instance) :=
  let p := scan_reservations cluster_name conn.reservations
  let master_nodes := p.1
  let slave_nodes := p.2
  if (master_nodes ≠ [] ∧ slave_nodes ≠ []) ∨ die_on_error = false then
    .ok (master_nodes, slave_nodes)
  else
    .error .clusterNotFound

/-- C6: an instance appears in the master (resp. worker) list only through a
reservation whose group-name list is exactly the master (resp. slave)
singleton for this cluster; mixed or foreign memberships never classify. -/
theorem c6_exact_group_classification (cn : String) (rs : List Reservation) :
    (∀ x ∈ (scan_reservations cn rs).1,
        ∃ res, res ∈ rs ∧ x ∈ res.instances ∧
          res.groups.map GroupInfo.name = [cn ++ "-master"]) ∧
    (∀ x ∈ (scan_reservations cn rs).2,
        ∃ res, res ∈ rs ∧ x ∈ res.instances ∧
          res.groups.map GroupInfo.name = [cn ++ "-slaves"]) := by
  induction rs with
  | nil => simp [scan_reservations]
  | cons res rest ih =>
    obtain ⟨ih1, ih2⟩ := ih
    have lift1 : ∀ x ∈ (scan_reservations cn rest).1,
        ∃ r, r ∈ res :: rest ∧ x ∈ r.instances ∧
          r.groups.map GroupInfo.name = [cn ++ "-master"] := by
      intro x hx
      obtain ⟨r, hr, hxi, hg⟩ := ih1 x hx
      exact ⟨r, List.mem_cons_of_mem _ hr, hxi, hg⟩
    have lift2 : ∀ x ∈ (scan_reservations cn rest).2,
        ∃ r, r ∈ res :: rest ∧ x ∈ r.instances ∧
          r.groups.map GroupInfo.name = [cn ++ "-slaves"] := by
      intro x hx
      obtain ⟨r, hr, hxi, hg⟩ := ih2 x hx
      exact ⟨r, List.mem_cons_of_mem _ hr, hxi, hg⟩
    simp only [scan_reservations]
    by_cases hact : 0 < (res.instances.filter is_active).length
    · by_cases hm : res.groups.map GroupInfo.name = [cn ++ "-master"]
      · simp only [if_pos hact, if_pos hm]
        refine ⟨?_, lift2⟩
        intro x hx
        rcases List.mem_append.mp hx with h | h
        · exact ⟨res, List.mem_cons_self res rest, h, hm⟩
        · exact lift1 x h
      · by_cases hs : res.groups.map GroupInfo.name = [cn ++ "-slaves"]
        · simp only [if_pos hact, if_neg hm, if_pos hs]
          refine ⟨lift1, ?_⟩
          intro x hx
          rcases List.mem_append.mp hx with h | h
          · exact ⟨res, List.mem_cons_self res rest, h, hs⟩
          · exact lift2 x h
        · simp only [if_pos hact, if_neg hm, if_neg hs]
          exact ⟨lift1, lift2⟩
    · simp only [if_neg hact]
      exact ⟨lift1, lift2⟩

/-- Witness for C6: a concrete instance classified as master comes from a
reservation whose group list is exactly the master singleton. -/
theorem c6_exact_group_classification_witness :
    ∃ res, res ∈ [Reservation.mk [⟨0, "running"⟩] [⟨"demo-master"⟩]] ∧
      (⟨0, "running"⟩ : Instance) ∈ res.instances ∧
      res.groups.map GroupInfo.name = ["demo" ++ "-master"] :=
  (c6_exact_group_classification "demo"
      [Reservation.mk [⟨0, "running"⟩] [⟨"demo-master"⟩]]).1
    ⟨0, "running"⟩ (by decide)

/-- C7: with die_on_error the inventory query fails exactly when the
discovered master list or slave list is empty; without it the discovered
pair is always returned. -/
theorem c7_die_on_error (conn : Conn) (opts : Opts) (cn : String) :
    get_existing_cluster conn opts cn false =
      .ok (scan_reservations cn conn.reservations) ∧
    (get_existing_cluster conn opts cn true = .error .clusterNotFound ↔
      ((scan_reservations cn conn.reservations).1 = [] ∨
       (scan_reservations cn conn.reservations).2 = [])) := by
  unfold get_existing_cluster
  constructor
  · simp
  · by_cases h1 : (scan_reservations cn conn.reservations).1 = [] <;>
      by_cases h2 : (scan_reservations cn conn.reservations).2 = [] <;>
      simp [h1, h2]

/-- A reservation holding one running and one terminated instance under the
demo master group. -/
def c4_reservation : Reservation :=
  { instances := [{ iid := 0, state := "running" }, { iid := 1, state := "terminated" }]
    groups := [{ name := "demo-master" }] }

/-- A provider state containing only c4_reservation. -/
def c4_conn : Conn :=
  { groups := []
    reservations := [c4_reservation]
    imagesResult := .ok []
    zones := []
    nextId := 0
    createCalls := []
    authCalls := []
    runCalls := []
    partitionCalls := [] }

/-- C4 (code behavior): the inventory query returns every instance of a
qualifying reservation, not only its active members; here the terminated
instance 1, which is not active, is returned in the master list because it
shares a reservation with the running instance 0. -/
theorem c4_terminated_node_returned :
    get_existing_cluster c4_conn default_opts "demo" false =
      .ok ([{ iid := 0, state := "running" }, { iid := 1, state := "terminated" }], []) ∧
    is_active { iid := 1, state := "terminated" } = false :=
  ⟨rfl, rfl⟩

/-- Source lines 126 to 133: look the security group up by exact name among
all groups of the account; if absent, create it (logged in createCalls). -/
def get_or_make_group (conn : Conn) (name : String) : SecGroup × Conn :=
  match conn.groups.filter (fun g => g.name == name) with
  | g :: _ => (g, conn)
  | [] =>
    let g : SecGroup := { name := name, description := "Spark EC2 group", rules := [] }
    (g, { conn with
            groups := conn.groups ++ [g]
            createCalls := conn.createCalls ++ [name] })

/-- A group.authorize call: the rule is appended to every account group of
that name and the call is logged in authCalls. -/
def authorize (conn : Conn) (gname : String) (r : Rule) : Conn :=
  { conn with
    groups := conn.groups.map
      (fun g => if g.name == gname then { g with rules := g.rules ++ [r] } else g)
    authCalls := conn.authCalls ++ [(gname, r)] }

/-- Source lines 159 to 172 of launch_cluster: ensure both role-scoped
groups exist and, only when the fetched group has an empty rule list,
authorize intra-cluster traffic and the fully open inbound rule. -/
def setup_security_groups (conn : Conn) (cluster_name : String) :
    SecGroup × SecGroup × Conn :=
  let p := get_or_make_group conn (cluster_name ++ "-master")
  let master_group := p.1
  let q := get_or_make_group p.2 (cluster_name ++ "-slaves")
  let slave_group := q.1
  let conn1 := q.2
  let conn2 :=
    if master_group.rules = [] then
      authorize (authorize (authorize conn1
          master_group.name (.srcGroup master_group.name))
          master_group.name (.srcGroup slave_group.name))
          master_group.name (.tcpRange "tcp" 0 65535 "0.0.0.0/0")
    else conn1
  let conn3 :=
    if slave_group.rules = [] then
      authorize (authorize (authorize conn2
          slave_group.name (.srcGroup master_group.name))
          slave_group.name (.srcGroup slave_group.name))
          slave_group.name (.tcpRange "tcp" 0 65535 "0.0.0.0/0")
    else conn2
  (master_group, slave_group, conn3)

/-- The account owns a group of the given name. -/
def has_group (conn : Conn) (name : String) : Prop :=
  ∃ g, g ∈ conn.groups ∧ g.name = name

theorem get_or_make_group_name (conn : Conn) (name : String) :
    (get_or_make_group conn name).1.name = name := by
  unfold get_or_make_group
  split
  · next g l heq =>
    have hg : g ∈ conn.groups.filter (fun g => g.name == name) := by
      rw [heq]; exact List.mem_cons_self g l
    have := List.mem_filter.mp hg
    exact eq_of_beq this.2
  · rfl

theorem get_or_make_group_found (conn : Conn) (name : String) (h : has_group conn name) :
    (get_or_make_group conn name).2 = conn ∧
    (get_or_make_group conn name).1 ∈ conn.groups := by
  obtain ⟨g, hg, hn⟩ := h
  have hmem : g ∈ conn.groups.filter (fun g => g.name == name) :=
    List.mem_filter.mpr ⟨hg, by simp [hn]⟩
  unfold get_or_make_group
  split
  · next g' l heq =>
    constructor
    · rfl
    · have : g' ∈ conn.groups.filter (fun g => g.name == name) := by
        rw [heq]; exact List.mem_cons_self g' l
      exact (List.mem_filter.mp this).1
  · next heq => rw [heq] at hmem; exact absurd hmem (List.not_mem_nil g)

theorem get_or_make_group_has (conn : Conn) (name : String) :
    has_group (get_or_make_group conn name).2 name := by
  unfold get_or_make_group
  split
  · next g l heq =>
    have hg : g ∈ conn.groups.filter (fun g => g.name == name) := by
      rw [heq]; exact List.mem_cons_self g l
    have := List.mem_filter.mp hg
    exact ⟨g, this.1, eq_of_beq this.2⟩
  · exact ⟨_, List.mem_append_right _ (List.mem_cons_self _ _), rfl⟩

theorem get_or_make_group_preserves (conn : Conn) (name other : String)
    (h : has_group conn other) : has_group (get_or_make_group conn name).2 other := by
  obtain ⟨g, hg, hn⟩ := h
  unfold get_or_make_group
  split
  · exact ⟨g, hg, hn⟩
  · exact ⟨g, List.mem_append_left _ hg, hn⟩

theorem authorize_preserves (conn : Conn) (gname : String) (r : Rule) (other : String)
    (h : has_group conn other) : has_group (authorize conn gname r) other := by
  obtain ⟨g, hg, hn⟩ := h
  refine ⟨if g.name == gname then { g with rules := g.rules ++ [r] } else g, ?_, ?_⟩
  · exact List.mem_map_of_mem _ hg
  · split <;> simp [hn]

theorem has_group_authorize_chain (P : Prop) [Decidable P] (conn : Conn)
    (a b c : String) (r1 r2 r3 : Rule) (n : String) (h : has_group conn n) :
    has_group (if P then authorize (authorize (authorize conn a r1) b r2) c r3 else conn) n := by
  split
  · exact authorize_preserves _ _ _ _ (authorize_preserves _ _ _ _
      (authorize_preserves _ _ _ _ h))
  · exact h

theorem setup_security_groups_has (conn : Conn) (cn : String) :
    has_group (setup_security_groups conn cn).2.2 (cn ++ "-master") ∧
    has_group (setup_security_groups conn cn).2.2 (cn ++ "-slaves") := by
  unfold setup_security_groups
  dsimp only
  have hm : has_group (get_or_make_group conn (cn ++ "-master")).2 (cn ++ "-master") :=
    get_or_make_group_has conn (cn ++ "-master")
  have hm2 : has_group
      (get_or_make_group (get_or_make_group conn (cn ++ "-master")).2 (cn ++ "-slaves")).2
      (cn ++ "-master") :=
    get_or_make_group_preserves _ _ _ hm
  have hs2 : has_group
      (get_or_make_group (get_or_make_group conn (cn ++ "-master")).2 (cn ++ "-slaves")).2
      (cn ++ "-slaves") :=
    get_or_make_group_has _ _
  constructor
  · exact has_group_authorize_chain _ _ _ _ _ _ _ _ _
      (has_group_authorize_chain _ _ _ _ _ _ _ _ _ hm2)
  · exact has_group_authorize_chain _ _ _ _ _ _ _ _ _
      (has_group_authorize_chain _ _ _ _ _ _ _ _ _ hs2)

/-- On a state where both role-scoped groups already exist with nonempty
rule lists, the provisioning step changes nothing. -/
theorem setup_security_groups_noop (conn : Conn) (cn : String)
    (hm : has_group conn (cn ++ "-master")) (hs : has_group conn (cn ++ "-slaves"))
    (h : ∀ g, g ∈ conn.groups →
        (g.name = cn ++ "-master" ∨ g.name = cn ++ "-slaves") → g.rules ≠ []) :
    (setup_security_groups conn cn).2.2 = conn := by
  obtain ⟨he1, he2⟩ := get_or_make_group_found conn (cn ++ "-master") hm
  have hname1 := get_or_make_group_name conn (cn ++ "-master")
  have hr1 : (get_or_make_group conn (cn ++ "-master")).1.rules ≠ [] :=
    h _ he2 (Or.inl hname1)
  unfold setup_security_groups
  dsimp only
  rw [he1]
  obtain ⟨he3, he4⟩ := get_or_make_group_found conn (cn ++ "-slaves") hs
  have hname2 := get_or_make_group_name conn (cn ++ "-slaves")
  have hr2 : (get_or_make_group conn (cn ++ "-slaves")).1.rules ≠ [] :=
    h _ he4 (Or.inr hname2)
  rw [he3, if_neg hr1, if_neg hr2]

/-- C5: running the security-group provisioning step a second time never
creates a second group with either role-scoped name and, when the rule
lists of the role groups are already nonempty after the first run, issues
no authorization call either. -/
theorem c5_ensure_groups_idempotent (conn : Conn) (cn : String)
    (h : ∀ g, g ∈ (setup_security_groups conn cn).2.2.groups →
        (g.name = cn ++ "-master" ∨ g.name = cn ++ "-slaves") → g.rules ≠ []) :
    (setup_security_groups ((setup_security_groups conn cn).2.2) cn).2.2.groups
        = (setup_security_groups conn cn).2.2.groups ∧
    (setup_security_groups ((setup_security_groups conn cn).2.2) cn).2.2.createCalls
        = (setup_security_groups conn cn).2.2.createCalls ∧
    (setup_security_groups ((setup_security_groups conn cn).2.2) cn).2.2.authCalls
        = (setup_security_groups conn cn).2.2.authCalls := by
  obtain ⟨hm, hs⟩ := setup_security_groups_has conn cn
  rw [setup_security_groups_noop _ cn hm hs h]
  exact ⟨rfl, rfl, rfl⟩

/-- An empty provider account state. -/
def empty_conn : Conn :=
  { groups := []
    reservations := []
    imagesResult := .ok []
    zones := []
    nextId := 0
    createCalls := []
    authCalls := []
    runCalls := []
    partitionCalls := [] }

/-- Witness for C5 starting from an empty account. -/
theorem c5_ensure_groups_idempotent_witness :
    (∀ g, g ∈ (setup_security_groups empty_conn "demo").2.2.groups →
        (g.name = "demo" ++ "-master" ∨ g.name = "demo" ++ "-slaves") → g.rules ≠ []) ∧
    ((setup_security_groups ((setup_security_groups empty_conn "demo").2.2) "demo").2.2.groups
        = (setup_security_groups empty_conn "demo").2.2.groups ∧
     (setup_security_groups ((setup_security_groups empty_conn "demo").2.2) "demo").2.2.createCalls
        = (setup_security_groups empty_conn "demo").2.2.createCalls ∧
     (setup_security_groups ((setup_security_groups empty_conn "demo").2.2) "demo").2.2.authCalls
        = (setup_security_groups empty_conn "demo").2.2.authCalls) :=
  ⟨by decide, c5_ensure_groups_idempotent empty_conn "demo" (by decide)⟩

/-- Source lines 441 to 446: the zone list is every zone of the region when
the zone option is all, and the singleton of the configured zone otherwise. -/
def get_zones (conn : Conn) (opts : Opts) : List String :=
  if opts.zone = "all" then conn.zones else [opts.zone]

/-- random.choice over a zone list: some element of the list (selected by the
random seed), and the IndexError of choosing from an empty list as none. -/
def choose_zone (zones : List String) (rand : Nat) : Option String :=
  zones.get? (rand % zones.length)

/-- An image.run call: count fresh pending instances are created and the
call is logged in runCalls (min_count = max_count = count as in the source). -/
def image_run (conn : Conn) (_image : Image) (group : String)
    (itype placement : String) (count : Nat) : List Instance × Conn :=
  let insts := (List.range count).map (fun k => { iid := conn.nextId + k, state := "pending" })
  (insts,
   { conn with
     nextId := conn.nextId + count
     runCalls := conn.runCalls ++
       [{ security_group := group, instance_type := itype, placement := placement,
          min_count := count, max_count := count }] })

/-- The worker-launch loop of launch_cluster (source lines 204 to 219): each
zone in order is given its partition share; a zone with a positive share
triggers one batched image.run call.  Each application of get_partition is
logged in partitionCalls. -/
def launch_slaves (conn : Conn) (image : Image) (group : String) (opts : Opts)
    (num_zones : Nat) : List String → Nat → List Instance × Conn
  | [], _ => ([], conn)
  | zone :: rest, i =>
    let conn0 := { conn with partitionCalls := conn.partitionCalls ++ [(opts.slaves, num_zones, i)] }
    let num_slaves_this_zone := get_partition opts.slaves num_zones i
    if num_slaves_this_zone > 0 then
      let r := image_run conn0 image group opts.instance_type zone num_slaves_this_zone
      let s := launch_slaves r.2 image group opts num_zones rest (i + 1)
      (r.1 ++ s.1, s.2)
    else
      launch_slaves conn0 image group opts num_zones rest (i + 1)

/-- Source lines 158 to 238: launch a cluster.  Security groups are ensured,
then, unless resuming, a conflict with any existing active master or worker
aborts with exit 1 before any launch; the image is resolved (bare except),
workers are launched zone by zone and finally the single master, whose zone
is chosen at random (seed rand) when the zone option is all. -/
def launch_cluster (conn : Conn) (opts : Opts) (cluster_name : String) (rand : Nat) :
    Except LaunchError (List Instance × List Instance) × Conn :=
  let t := setup_security_groups conn cluster_name
  let master_group := t.1
  let slave_group := t.2.1
  let conn1 := t.2.2
  if opts.resume then
    (get_existing_cluster conn1 opts cluster_name false, conn1)
  else
    match get_existing_cluster conn1 opts cluster_name false with
    | .error e => (.error e, conn1)
    | .ok (master_nodes, slave_nodes) =>
      if master_nodes ≠ [] ∨ slave_nodes ≠ [] then
        (.error (.clusterExists master_group.name slave_group.name), conn1)
      else
        match resolve_image conn1.imagesResult opts.ami with
        | .error m => (.error (.amiNotFound m.2), conn1)
        | .ok image =>
          let zones := get_zones conn1 opts
          let num_zones := zones.length
          let s := launch_slaves conn1 image slave_group.name opts num_zones zones 0
          let slave_nodes := s.1
          let conn2 := s.2
          let master_type :=
            if opts.master_instance_type = "" then opts.instance_type
            else opts.master_instance_type
          match (if opts.zone = "all" then choose_zone conn2.zones rand else some opts.zone) with
          | none => (.error .indexError, conn2)
          | some master_zone =>
            let r := image_run conn2 image master_group.name master_type master_zone 1
            (.ok (r.1, slave_nodes), r.2)

/-- Two connection states agreeing on everything the launch path reads
outside the security groups and their call logs. -/
def same_frame (a b : Conn) : Prop :=
  a.reservations = b.reservations ∧ a.imagesResult = b.imagesResult ∧
  a.zones = b.zones ∧ a.runCalls = b.runCalls ∧ a.partitionCalls = b.partitionCalls

theorem same_frame_trans {a b c : Conn} (h1 : same_frame a b) (h2 : same_frame b c) :
    same_frame a c := by
  obtain ⟨x1, x2, x3, x4, x5⟩ := h1
  obtain ⟨y1, y2, y3, y4, y5⟩ := h2
  exact ⟨x1.trans y1, x2.trans y2, x3.trans y3, x4.trans y4, x5.trans y5⟩

theorem authorize_frame (conn : Conn) (gname : String) (r : Rule) :
    same_frame (authorize conn gname r) conn :=
  ⟨rfl, rfl, rfl, rfl, rfl⟩

theorem get_or_make_group_frame (conn : Conn) (name : String) :
    same_frame (get_or_make_group conn name).2 conn := by
  unfold get_or_make_group
  split <;> exact ⟨rfl, rfl, rfl, rfl, rfl⟩

theorem if_chain_frame (P : Prop) [Decidable P] (conn : Conn)
    (a b c : String) (r1 r2 r3 : Rule) :
    same_frame (if P then authorize (authorize (authorize conn a r1) b r2) c r3 else conn)
      conn := by
  split
  · exact same_frame_trans (authorize_frame _ _ _) (same_frame_trans
      (authorize_frame _ _ _) (authorize_frame _ _ _))
  · exact ⟨rfl, rfl, rfl, rfl, rfl⟩

/-- The provisioning step touches only groups and the group-call logs: the
reservations, image lookup, zone list, run log and partition log are kept. -/
theorem setup_security_groups_frame (conn : Conn) (cn : String) :
    same_frame (setup_security_groups conn cn).2.2 conn := by
  unfold setup_security_groups
  dsimp only
  refine same_frame_trans (if_chain_frame _ _ _ _ _ _ _ _) ?_
  refine same_frame_trans (if_chain_frame _ _ _ _ _ _ _ _) ?_
  exact same_frame_trans (get_or_make_group_frame _ _) (get_or_make_group_frame _ _)


theorem setup_security_groups_names (conn : Conn) (cn : String) :
    (setup_security_groups conn cn).1.name = cn ++ "-master" ∧
    (setup_security_groups conn cn).2.1.name = cn ++ "-slaves" := by
  unfold setup_security_groups
  dsimp only
  exact ⟨get_or_make_group_name _ _, get_or_make_group_name _ _⟩

theorem get_existing_cluster_no_die (conn : Conn) (opts : Opts) (cn : String) :
    get_existing_cluster conn opts cn false =
      .ok (scan_reservations cn conn.reservations) := by
  unfold get_existing_cluster
  simp

/-- C3: when any active master or worker is already classified under the
cluster name and the resume flag is off, launch_cluster aborts with the
conflict error and issues no image.run call at all. -/
theorem c3_launch_conflict_guard (conn : Conn) (opts : Opts) (cn : String) (rand : Nat)
    (hres : opts.resume = false)
    (hex : (scan_reservations cn conn.reservations).1 ≠ [] ∨
           (scan_reservations cn conn.reservations).2 ≠ []) :
    (launch_cluster conn opts cn rand).1 =
      .error (.clusterExists (cn ++ "-master") (cn ++ "-slaves")) ∧
    (launch_cluster conn opts cn rand).2.runCalls = conn.runCalls := by
  obtain ⟨f1, f2, f3, f4, f5⟩ := setup_security_groups_frame conn cn
  obtain ⟨hn1, hn2⟩ := setup_security_groups_names conn cn
  rcases hms : scan_reservations cn conn.reservations with ⟨m, s⟩
  rw [hms] at hex
  dsimp only at hex
  unfold launch_cluster
  dsimp only
  rw [if_neg (by simp [hres]), get_existing_cluster_no_die, f1, hms]
  dsimp only
  rw [if_pos hex, hn1, hn2]
  exact ⟨rfl, f4⟩

/-- A provider state with no reservations, one resolvable image and an empty
zone list. -/
def c8_conn : Conn :=
  { empty_conn with imagesResult := .ok [{ id := "ami-a25415cb" }] }

/-- Options requesting the zone spread (zone all) with the resume flag off. -/
def c8_opts : Opts := { default_opts with zone := "all" }

/-- C8 (counterexample): with an empty resolved zone list the launch does
not fail with a ConfigurationError; it fails with the uncaught IndexError
of choosing the master zone from an empty list. -/
theorem c8_no_configuration_error :
    (launch_cluster c8_conn c8_opts "demo" 0).1 = .error .indexError ∧
    (launch_cluster c8_conn c8_opts "demo" 0).1 ≠ .error .configError := by
  refine ⟨rfl, ?_⟩
  intro h
  rw [(rfl : (launch_cluster c8_conn c8_opts "demo" 0).1 = .error .indexError)] at h
  injection h with h2
  cases h2

/-- C8 (amended): on a launch that reaches zone resolution (no resume, no
conflict, image resolves) and resolves an empty zone list, the partition
function is never applied at all and no worker is launched; the run fails
with the uncaught index error of the master-zone choice, not with a
ConfigurationError. -/
theorem c8_empty_zone_resolution (conn : Conn) (opts : Opts) (cn : String) (rand : Nat)
    (img : Image) (imgs : List Image)
    (hres : opts.resume = false)
    (hemp : scan_reservations cn conn.reservations = ([], []))
    (himg : conn.imagesResult = .ok (img :: imgs))
    (hall : opts.zone = "all")
    (hz : conn.zones = []) :
    (launch_cluster conn opts cn rand).1 = .error .indexError ∧
    (launch_cluster conn opts cn rand).2.partitionCalls = conn.partitionCalls ∧
    (launch_cluster conn opts cn rand).2.runCalls = conn.runCalls := by
  obtain ⟨f1, f2, f3, f4, f5⟩ := setup_security_groups_frame conn cn
  unfold launch_cluster
  dsimp only
  rw [if_neg (by simp [hres]), get_existing_cluster_no_die, f1, hemp]
  dsimp only
  rw [if_neg (by simp), f2, himg]
  unfold resolve_image
  dsimp only
  unfold get_zones
  rw [if_pos hall, f3, hz]
  unfold launch_slaves
  dsimp only
  rw [if_pos hall, f3, hz]
  unfold choose_zone
  dsimp only
  exact ⟨rfl, f5, f4⟩

/-- Witness for C8 (amended) at the concrete empty-zone state. -/
theorem c8_empty_zone_resolution_witness :
    c8_opts.resume = false ∧
    scan_reservations "demo" c8_conn.reservations = ([], []) ∧
    c8_conn.imagesResult = .ok ({ id := "ami-a25415cb" } :: []) ∧
    c8_opts.zone = "all" ∧
    c8_conn.zones = [] ∧
    ((launch_cluster c8_conn c8_opts "demo" 0).1 = .error .indexError ∧
     (launch_cluster c8_conn c8_opts "demo" 0).2.partitionCalls = c8_conn.partitionCalls ∧
     (launch_cluster c8_conn c8_opts "demo" 0).2.runCalls = c8_conn.runCalls) :=
  ⟨rfl, rfl, rfl, rfl, rfl,
   c8_empty_zone_resolution c8_conn c8_opts "demo" 0 { id := "ami-a25415cb" } []
     rfl rfl rfl rfl rfl⟩

/-- A provider state in which one active reservation is classified under the
demo master group. -/
def c3_conn : Conn :=
  { empty_conn with
    reservations := [{ instances := [{ iid := 0, state := "running" }]
                       groups := [{ name := "demo-master" }] }] }

/-- Witness for C3 at a concrete conflicting state. -/
theorem c3_launch_conflict_guard_witness :
    default_opts.resume = false ∧
    ((scan_reservations "demo" c3_conn.reservations).1 ≠ [] ∨
     (scan_reservations "demo" c3_conn.reservations).2 ≠ []) ∧
    ((launch_cluster c3_conn default_opts "demo" 0).1 =
       .error (.clusterExists ("demo" ++ "-master") ("demo" ++ "-slaves")) ∧
     (launch_cluster c3_conn default_opts "demo" 0).2.runCalls = c3_conn.runCalls) :=
  ⟨rfl, Or.inl (by decide),
   c3_launch_conflict_guard c3_conn default_opts "demo" 0 rfl (Or.inl (by decide))⟩

/-- A node as the configurator sees it (boto instance attributes read by
setup_cluster and its callees). -/
structure Node where
  public_dns_name : String
  ip_address : String
deriving DecidableEq, Repr

/-- One remote operation issued through ssh or scp, tagged with the identity
(opts.user) in effect when it was issued. -/
inductive RemoteOp where
  | sshCmd (user host command : String)
  | scpUp (user host local_file dest_file : String)
deriving DecidableEq, Repr

/-- The identity an operation was issued as. -/
def RemoteOp.user : RemoteOp → String
  | .sshCmd u _ _ => u
  | .scpUp u _ _ _ => u

/-- Source line 282 command payload. -/
def permit_root_login_cmd : String :=
  "echo \"PermitRootLogin yes\"|sudo tee -a /etc/ssh/sshd_config"

/-- Source line 283 command payload. -/
def copy_root_keys_cmd : String :=
  "sudo cp /home/ec2-user/.ssh/authorized_keys /root/.ssh/authorized_keys; sudo /etc/init.d/sshd restart;"

/-- The node-bootstrap payload of configure_node (source lines 300 to 323):
repository registration and package installation, opaque to every claim. -/
def configure_node_cmd : String :=
  "node bootstrap payload (hdp repos, jdk, hadoop packages)"

/-- The master service payload of setup_master (source lines 343 to 355):
postgres setup, opaque to every claim. -/
def setup_master_cmd : String :=
  "master bootstrap payload (postgresql setup)"

/-- Source lines 299 to 325: one ssh bootstrap call per node, issued as the
current opts.user.  The name argument becomes the assigned role name of the
node; the embedding threads it through named_assignment below instead of
mutating the node object. -/
def configure_node (node : Node) (opts : Opts) (_name : String) : List RemoteOp :=
  [.sshCmd opts.user node.public_dns_name configure_node_cmd]

/-- Source lines 342 to 356: the master-specific service bootstrap. -/
def setup_master (master : Node) (opts : Opts) : List RemoteOp :=
  [.sshCmd opts.user master.public_dns_name setup_master_cmd]

/-- Source lines 327 to 340: push the generated hosts file to every node,
set its hostname to its assigned role name and restart time sync.  A node
without an assigned name makes the source fail with an AttributeError,
modelled as none. -/
def generate_hosts_and_key (nodes : List Node) (named : List (Node × String))
    (opts : Opts) : Option (List RemoteOp) :=
  match nodes with
  | [] => some []
  | node :: rest =>
    match (named.find? (fun q => q.1 == node)).map Prod.snd with
    | none => none
    | some nm =>
      match generate_hosts_and_key rest named opts with
      | none => none
      | some more =>
        some ([.scpUp opts.user node.public_dns_name "tmp_hosts_file" "/etc/hosts",
               .sshCmd opts.user node.public_dns_name ("hostname " ++ nm ++ ".hdp.hadoop"),
               .sshCmd opts.user node.public_dns_name "/etc/init.d/ntpd restart"] ++ more)

/-- Source lines 275 to 279: optional distribution of the private key to the
master. -/
def key_distribution_ops (master : Node) (opts : Opts) (deploy_ssh_key : Bool) :
    List RemoteOp :=
  if deploy_ssh_key then
    [.sshCmd opts.user master.public_dns_name "mkdir -p ~/.ssh",
     .scpUp opts.user master.public_dns_name opts.identity_file "~/.ssh/id_rsa",
     .sshCmd opts.user master.public_dns_name "chmod 600 ~/.ssh/id_rsa"]
  else []

/-- Source lines 281 to 283: the privilege-elevation handshake on every node. -/
def elevation_ops (nodes : List Node) (opts : Opts) : List RemoteOp :=
  nodes.flatMap (fun node =>
    [.sshCmd opts.user node.public_dns_name permit_root_login_cmd,
     .sshCmd opts.user node.public_dns_name copy_root_keys_cmd])

/-- The role names assigned during configuration (source lines 287 to 289):
the first master is hdpmaster1 and slave i is hdpslave i. -/
def named_assignment (master : Node) (slave_nodes : List Node) : List (Node × String) :=
  (master, "hdpmaster1") :: slave_nodes.enum.map (fun p => (p.2, "hdpslave" ++ toString p.1))

/-- Source lines 268 to 296: the post-launch configuration sequence.  The
mutation of the shared opts.user field (to ec2-user for the handshake, then
to root) is threaded explicitly; the returned pair is the final opts value
and the ordered list of remote operations issued.  wait_for_cluster issues
no remote operation. -/
def setup_cluster (master_nodes slave_nodes : List Node) (opts : Opts)
    (deploy_ssh_key : Bool) : Option (Opts × List RemoteOp) :=
  match master_nodes with
  | [] => none
  | master :: _ =>
    let opts1 : Opts := { opts with user := "ec2-user" }
    let key_ops := key_distribution_ops master opts1 deploy_ssh_key
    let elev_ops := elevation_ops (master_nodes ++ slave_nodes) opts1
    let opts2 : Opts := { opts1 with user := "root" }
    let named := named_assignment master slave_nodes
    let config_ops :=
      configure_node master opts2 "hdpmaster1" ++
        slave_nodes.enum.flatMap (fun p => configure_node p.2 opts2 ("hdpslave" ++ toString p.1))
    let master_ops := setup_master master opts2
    match generate_hosts_and_key (master_nodes ++ slave_nodes) named opts2 with
    | none => none
    | some hosts_ops =>
      some (opts2, key_ops ++ elev_ops ++ config_ops ++ master_ops ++ hosts_ops)

theorem key_distribution_ops_user (master : Node) (opts : Opts) (d : Bool) :
    ∀ op ∈ key_distribution_ops master opts d, RemoteOp.user op = opts.user := by
  intro op hop
  unfold key_distribution_ops at hop
  split at hop
  · simp only [List.mem_cons, List.not_mem_nil, or_false] at hop
    rcases hop with rfl | rfl | rfl <;> rfl
  · simp at hop

theorem elevation_ops_user (nodes : List Node) (opts : Opts) :
    ∀ op ∈ elevation_ops nodes opts, RemoteOp.user op = opts.user := by
  intro op hop
  unfold elevation_ops at hop
  rw [List.mem_flatMap] at hop
  obtain ⟨node, _, hm⟩ := hop
  simp only [List.mem_cons, List.not_mem_nil, or_false] at hm
  rcases hm with rfl | rfl <;> rfl

/-- When every node has an assigned name, the hosts fan-out succeeds and all
of its operations are issued as the current opts.user. -/
theorem generate_hosts_user (nodes : List Node) (named : List (Node × String)) (opts : Opts)
    (h : ∀ n ∈ nodes, ∃ p ∈ named, p.1 = n) :
    ∃ ops, generate_hosts_and_key nodes named opts = some ops ∧
      ∀ op ∈ ops, RemoteOp.user op = opts.user := by
  induction nodes with
  | nil => exact ⟨[], rfl, by simp⟩
  | cons node rest ih =>
    obtain ⟨ops, hops, hu⟩ := ih (fun n hn => h n (List.mem_cons_of_mem _ hn))
    obtain ⟨p, hp, hpn⟩ := h node (List.mem_cons_self _ _)
    have hfind : (named.find? (fun q => q.1 == node)).isSome := by
      rw [List.find?_isSome]
      exact ⟨p, hp, by simp [hpn]⟩
    obtain ⟨q, hq⟩ := Option.isSome_iff_exists.mp hfind
    refine ⟨[.scpUp opts.user node.public_dns_name "tmp_hosts_file" "/etc/hosts",
             .sshCmd opts.user node.public_dns_name ("hostname " ++ q.2 ++ ".hdp.hadoop"),
             .sshCmd opts.user node.public_dns_name "/etc/init.d/ntpd restart"] ++ ops, ?_, ?_⟩
    · unfold generate_hosts_and_key
      rw [hq]
      dsimp only [Option.map_some']
      rw [hops]
    · intro op hop
      rcases List.mem_append.mp hop with h1 | h1
      · simp only [List.mem_cons, List.not_mem_nil, or_false] at h1
        rcases h1 with rfl | rfl | rfl <;> rfl
      · exact hu op h1

/-- C9: for every initial value of the user option, setup_cluster issues the
key-distribution and privilege-elevation operations as ec2-user, issues
every later operation as root, and returns with the user field overwritten
to root (all other option fields kept). -/
theorem c9_user_elevation_to_root (master : Node) (slave_nodes : List Node)
    (opts : Opts) (d : Bool) :
    ∃ pre post,
      setup_cluster [master] slave_nodes opts d =
        some ({ opts with user := "root" }, pre ++ post) ∧
      (∀ op ∈ pre, RemoteOp.user op = "ec2-user") ∧
      (∀ op ∈ post, RemoteOp.user op = "root") := by
  have hcov : ∀ n ∈ (master :: slave_nodes),
      ∃ p ∈ named_assignment master slave_nodes, p.1 = n := by
    intro n hn
    rcases List.mem_cons.mp hn with rfl | hn2
    · exact ⟨(n, "hdpmaster1"), List.mem_cons_self _ _, rfl⟩
    · have hmap : n ∈ slave_nodes.enum.map Prod.snd := by
        rw [List.enum_map_snd]; exact hn2
      obtain ⟨pr, hpr, hpr2⟩ := List.mem_map.mp hmap
      exact ⟨(pr.2, "hdpslave" ++ toString pr.1),
        List.mem_cons_of_mem _ (List.mem_map_of_mem _ hpr), hpr2⟩
  obtain ⟨hops, hgen, hu⟩ :=
    generate_hosts_user (master :: slave_nodes) (named_assignment master slave_nodes)
      { opts with user := "root" } hcov
  refine ⟨key_distribution_ops master { opts with user := "ec2-user" } d ++
            elevation_ops (master :: slave_nodes) { opts with user := "ec2-user" },
          (configure_node master { opts with user := "root" } "hdpmaster1" ++
            slave_nodes.enum.flatMap (fun p =>
              configure_node p.2 { opts with user := "root" } ("hdpslave" ++ toString p.1))) ++
            setup_master master { opts with user := "root" } ++ hops, ?_, ?_, ?_⟩
  · calc setup_cluster [master] slave_nodes opts d
        = (match generate_hosts_and_key (master :: slave_nodes)
              (named_assignment master slave_nodes) { opts with user := "root" } with
           | none => none
           | some hosts_ops =>
             some (({ opts with user := "root" } : Opts),
               key_distribution_ops master { opts with user := "ec2-user" } d ++
               elevation_ops (master :: slave_nodes) { opts with user := "ec2-user" } ++
               (configure_node master { opts with user := "root" } "hdpmaster1" ++
                 slave_nodes.enum.flatMap (fun p =>
                   configure_node p.2 { opts with user := "root" }
                     ("hdpslave" ++ toString p.1))) ++
               setup_master master { opts with user := "root" } ++ hosts_ops)) := rfl
      _ = _ := by rw [hgen]; simp [List.append_assoc]
  · intro op hop
    rcases List.mem_append.mp hop with h1 | h1
    · exact key_distribution_ops_user _ _ _ _ h1
    · exact elevation_ops_user _ _ _ h1
  · intro op hop
    rcases List.mem_append.mp hop with h1 | h1
    · rcases List.mem_append.mp h1 with h2 | h2
      · rcases List.mem_append.mp h2 with h3 | h3
        · simp only [configure_node, List.mem_cons, List.not_mem_nil, or_false] at h3
          rw [h3]; rfl
        · rw [List.mem_flatMap] at h3
          obtain ⟨pr, _, hm⟩ := h3
          simp only [configure_node, List.mem_cons, List.not_mem_nil, or_false] at hm
          rw [hm]; rfl
      · simp only [setup_master, List.mem_cons, List.not_mem_nil, or_false] at h2
        rw [h2]; rfl
    · exact hu op h1

end PrepareHdp
